import Mathlib

/-!
Verification development for the route evaluation and live-adaptation engine
of `src/src/components/MapView.jsx`.

The JavaScript code is shallowly embedded over exact rational arithmetic.
The transcendental functions from the host `Math` library (`sin`, `cos`,
`atan2`, `sqrt`, and the constant `PI`) are abstracted into a `MathOps`
record: every definition below is parameterised by such a record, exactly
as the source is parameterised by its host math library.  Wall-clock reads
(`Date.now()`) are embedded as a clock stream `ℕ → ℚ`: the k-th read during
a computation returns the k-th element of the stream.  `Math.random()`
reads are embedded likewise as explicit random inputs.
-/

namespace MapView

/-- A latitude/longitude pair, as the two-element arrays of the source. -/
abbrev Coord := ℚ × ℚ

/-- The host math library surface used by the source. -/
structure MathOps where
  sin : ℚ → ℚ
  cos : ℚ → ℚ
  atan2 : ℚ → ℚ → ℚ
  sqrt : ℚ → ℚ
  pi : ℚ

/-- Truncation toward zero, as JavaScript number-to-integer truncation. -/
def ratTrunc (q : ℚ) : ℤ := q.num.tdiv q.den

/-- The JavaScript `%` operator on numbers: remainder with the dividend's sign. -/
def jsMod (x y : ℚ) : ℚ := x - y * (ratTrunc (x / y) : ℚ)

/-- JavaScript `Math.round`: round half toward positive infinity. -/
def jsRound (q : ℚ) : ℤ := ⌊q + 1 / 2⌋

/-- `toRad` from `haversineDistance`: degrees to radians. -/
def toRad (ops : MathOps) (deg : ℚ) : ℚ := deg * ops.pi / 180

/-- `haversineDistance(a, b)` of the source: great-circle distance in meters. -/
def haversineDistance (ops : MathOps) (a b : Coord) : ℚ :=
  let R : ℚ := 6371000
  let dLat := toRad ops (b.1 - a.1)
  let dLon := toRad ops (b.2 - a.2)
  let la1 := toRad ops a.1
  let la2 := toRad ops b.1
  let sinDLat := ops.sin (dLat / 2)
  let sinDLon := ops.sin (dLon / 2)
  let h := sinDLat * sinDLat + ops.cos la1 * ops.cos la2 * sinDLon * sinDLon
  let c := 2 * ops.atan2 (ops.sqrt h) (ops.sqrt (1 - h))
  R * c

/-- A road segment of the mocked network (`name` is attached by `withName`,
the base network stores it empty). -/
structure Segment where
  id : String
  coords : List Coord
  speed : ℚ
  safety : ℚ
  signals : List Coord
  lanes : ℕ
  name : String
deriving DecidableEq

/-- `buildPath(segments)`: concatenate the coordinate sequences, skipping the
point with inner index 0 of every segment with outer index above 0. -/
def buildPath (segments : List Segment) : List Coord :=
  segments.enum.flatMap fun iseg =>
    iseg.2.coords.enum.filterMap fun ipt =>
      if 0 < iseg.1 ∧ ipt.1 = 0 then none else some ipt.2

/-- `pathDistance(path)`: sum of haversine distances over consecutive pairs. -/
def pathDistance (ops : MathOps) (path : List Coord) : ℚ :=
  (path.zip path.tail).foldl (fun total pq => total + haversineDistance ops pq.1 pq.2) 0

/-- `routeSafetyColor(score)`: the five ordered color bands. -/
def routeSafetyColor (score : ℚ) : String :=
  if score ≥ 80 then "#10b981"
  else if score ≥ 60 then "#84cc16"
  else if score ≥ 40 then "#f59e0b"
  else if score ≥ 20 then "#f97316"
  else "#ef4444"

/-- A per-segment live condition record. -/
structure Condition where
  speedFactor : ℚ
  safetyAdj : ℚ
  crowd : ℚ
deriving DecidableEq

/-- The neutral condition every segment is initialized to. -/
def condNeutral : Condition := { speedFactor := 1, safetyAdj := 0, crowd := 0.3 }

/-- `conditions[s.id] || defaultValue` of the source: map lookup with the
neutral fallback object. -/
def lookupCond (conds : List (String × Condition)) (sid : String) : Condition :=
  ((conds.find? fun p => p.1 == sid).map Prod.snd).getD condNeutral

/-- One Condition Store tick for one segment, `r1 r2 r3` being the three
`Math.random()` draws in source evaluation order (crowd, safetyAdj, speed). -/
def tickCond (c : Condition) (r1 r2 r3 : ℚ) : Condition :=
  { speedFactor := max 0.7 (min 1.3 (c.speedFactor + (r3 - 0.5) * 0.1))
    crowd := max 0 (min 1 (c.crowd + (r1 - 0.5) * 0.1))
    safetyAdj := max (-20) (min 20 (c.safetyAdj + (r2 - 0.5) * 2)) }

/-- One Condition Store tick over the whole per-segment map. -/
def tickStore (rand : String → ℚ × ℚ × ℚ) (conds : List (String × Condition)) :
    List (String × Condition) :=
  conds.map fun p => (p.1, tickCond p.2 (rand p.1).1 (rand p.1).2.1 (rand p.1).2.2)

/-- The Condition Store after `n` ticks with random draws `rs`. -/
def tickStoreIter (rs : ℕ → String → ℚ × ℚ × ℚ) :
    ℕ → List (String × Condition) → List (String × Condition)
  | 0, conds => conds
  | n + 1, conds => tickStore (rs n) (tickStoreIter rs n conds)

/-- The seed of the pseudo prediction: sum of the segment id's char codes. -/
def seedOf (segId : String) : ℕ := (segId.data.map Char.toNat).sum

/-- The fixed per-segment lighting penalty; the source tests
`segId.startsWith('C')` and `segId.startsWith('A')`, i.e. the first char. -/
def lightingPenalty (segId : String) : ℚ :=
  if segId.data.head? = some 'C' then 8
  else if segId.data.head? = some 'A' then 2
  else 0

/-- The forecast record returned by `predict`. -/
structure Forecast where
  speedFactor : ℚ
  safetyAdj : ℚ
deriving DecidableEq

/-- `predict(segId, horizonMin)` of the source, with the `Date.now()` read
made explicit as `now`. -/
def predict (ops : MathOps) (segId : String) (horizonMin : ℚ) (now : ℚ) : Forecast :=
  let seed : ℚ := (seedOf segId : ℚ)
  let phase := (ops.sin (jsMod (now / 100000 + seed) ops.pi) + 1) / 2
  let congestion := 0.9 + 0.3 * phase * (horizonMin / 30)
  let risk := -5 + 15 * phase * (horizonMin / 30)
  { speedFactor := 1 / congestion, safetyAdj := risk - lightingPenalty segId }

/-- The user preference weights. -/
structure Prefs where
  avoidBusy : ℚ
  preferLit : ℚ
  comfort : ℚ
deriving DecidableEq

/-- One step descriptor of an evaluated route. -/
structure Step where
  instruction : String
  street : String
  distance : ℚ
  safety : ℚ
  note : Option String
deriving DecidableEq

/-- One color-classified polyline of an evaluated route. -/
structure ColoredSeg where
  coords : List Coord
  color : String
deriving DecidableEq

/-- The accumulator of the per-segment loop inside `evaluate`. -/
structure EvalAcc where
  totalMeters : ℚ
  totalTimeH : ℚ
  safetySum : ℚ
  crowdSum : ℚ
  steps : List Step
deriving DecidableEq

/-- A route candidate: profile key plus its fixed segment sequence. -/
structure Candidate where
  key : String
  segs : List Segment
deriving DecidableEq

/-- The fully evaluated form of a candidate. -/
structure EvaluatedRoute where
  key : String
  segs : List Segment
  path : List Coord
  total : ℚ
  etaMin : ℚ
  steps : List Step
  colored : List ColoredSeg
  avgSafety : ℚ
  avgCrowd : ℚ
  score : ℚ
deriving DecidableEq

/-- The body of the `segs.map` loop inside `evaluate`, folded over an
accumulator; segment `i` reads the clock at its own predict call. -/
def evalStep (ops : MathOps) (clock : ℕ → ℚ) (conds : List (String × Condition))
    (horizon : ℚ) (acc : EvalAcc) (iseg : ℕ × Segment) : EvalAcc :=
  let i := iseg.1
  let s := iseg.2
  let dist := pathDistance ops s.coords
  let cond := lookupCond conds s.id
  let pred := predict ops s.id horizon (clock i)
  let effSpeed := max 5 (s.speed * cond.speedFactor * pred.speedFactor)
  let timeH := dist / 1000 / effSpeed
  let effSafety := max 0 (min 100 (s.safety + cond.safetyAdj + pred.safetyAdj))
  let note : Option String :=
    if effSafety ≥ 75 then some "Well-lit area with cameras"
    else if effSafety ≤ 45 then some "Low visibility, avoid late hours"
    else none
  { totalMeters := acc.totalMeters + dist
    totalTimeH := acc.totalTimeH + timeH
    safetySum := acc.safetySum + effSafety * dist
    crowdSum := acc.crowdSum + cond.crowd * dist
    steps := acc.steps ++
      [{ instruction := if i = 0 then "Head onto " ++ s.name else "Continue along " ++ s.name
         street := s.name
         distance := dist
         safety := effSafety
         note := note }] }

/-- `evaluate(candidate)` of the source.  The clock stream supplies the
`Date.now()` reads: the metric loop reads `clock i` for segment `i`, and the
coloring pass reads `clock (segs.length + i)`, matching call order. -/
def evaluate (ops : MathOps) (clock : ℕ → ℚ) (conds : List (String × Condition))
    (horizon : ℚ) (prefs : Prefs) (candidate : Candidate) : EvaluatedRoute :=
  let segs := candidate.segs
  let path := buildPath segs
  let r := segs.enum.foldl (evalStep ops clock conds horizon)
    { totalMeters := 0, totalTimeH := 0, safetySum := 0, crowdSum := 0, steps := [] }
  let avgSafety := r.safetySum / max r.totalMeters 1
  let avgCrowd := r.crowdSum / max r.totalMeters 1
  let timeMin := r.totalTimeH * 60
  let score := avgSafety / 100 * (0.5 + prefs.preferLit * 0.5) -
    timeMin / 30 * (0.5 + (1 - prefs.comfort) * 0.5) -
    avgCrowd * prefs.avoidBusy * 0.8
  let colored := segs.enum.map fun iseg =>
    let cond := lookupCond conds iseg.2.id
    let pred := predict ops iseg.2.id horizon (clock (segs.length + iseg.1))
    let eff := max 0 (min 100 (iseg.2.safety + cond.safetyAdj + pred.safetyAdj))
    ColoredSeg.mk iseg.2.coords (routeSafetyColor eff)
  { key := candidate.key
    segs := segs
    path := path
    total := r.totalMeters
    etaMin := timeMin
    steps := r.steps
    colored := colored
    avgSafety := avgSafety
    avgCrowd := avgCrowd
    score := score }

/-- `evaluate` with the wall clock held at a single value `now` for the whole
evaluation: the once-per-evaluation sampling discipline of the spec. -/
def evaluateAt (ops : MathOps) (now : ℚ) (conds : List (String × Condition))
    (horizon : ℚ) (prefs : Prefs) (candidate : Candidate) : EvaluatedRoute :=
  evaluate ops (fun _ => now) conds horizon prefs candidate

/-- Segment A1 of Aurora Ave. -/
def segA1 : Segment :=
  { id := "A1"
    coords := [(37.776, -122.424), (37.7765, -122.421), (37.7768, -122.4185), (37.7772, -122.416)]
    speed := 40
    safety := 62
    signals := [(37.7765, -122.421), (37.7772, -122.416)]
    lanes := 2
    name := "" }

/-- Segment A2 of Aurora Ave. -/
def segA2 : Segment :=
  { id := "A2"
    coords := [(37.7772, -122.416), (37.7783, -122.4135), (37.779, -122.4115)]
    speed := 40
    safety := 55
    signals := [(37.7783, -122.4135)]
    lanes := 2
    name := "" }

/-- Segment B1 of Beacon St. -/
def segB1 : Segment :=
  { id := "B1"
    coords := [(37.7745, -122.419), (37.7752, -122.417), (37.776, -122.4145)]
    speed := 30
    safety := 80
    signals := [(37.7752, -122.417)]
    lanes := 1
    name := "" }

/-- Segment B2 of Beacon St. -/
def segB2 : Segment :=
  { id := "B2"
    coords := [(37.776, -122.4145), (37.777, -122.412), (37.7778, -122.41)]
    speed := 30
    safety := 78
    signals := [(37.777, -122.412)]
    lanes := 1
    name := "" }

/-- Segment C1 of Cobalt Blvd. -/
def segC1 : Segment :=
  { id := "C1"
    coords := [(37.7735, -122.4235), (37.773, -122.421), (37.7725, -122.418)]
    speed := 50
    safety := 45
    signals := [(37.773, -122.421)]
    lanes := 3
    name := "" }

/-- Segment C2 of Cobalt Blvd. -/
def segC2 : Segment :=
  { id := "C2"
    coords := [(37.7725, -122.418), (37.772, -122.4155), (37.7715, -122.413)]
    speed := 50
    safety := 42
    signals := [(37.772, -122.4155)]
    lanes := 3
    name := "" }

/-- `withName(seg, name)` of `baseCandidates`. -/
def withName (s : Segment) (n : String) : Segment := { s with name := n }

/-- The `fastest` candidate: `fastestSegs` of `baseCandidates`. -/
def candFastest : Candidate :=
  { key := "fastest"
    segs := [withName segC1 "Cobalt Blvd", withName segC2 "Cobalt Blvd", withName segA2 "Aurora Ave"] }

/-- The `safest` candidate: `safestSegs` of `baseCandidates`. -/
def candSafest : Candidate :=
  { key := "safest"
    segs := [withName segB1 "Beacon St", withName segB2 "Beacon St"] }

/-- The `balanced` candidate: `balancedSegs` of `baseCandidates`. -/
def candBalanced : Candidate :=
  { key := "balanced"
    segs := [withName segA1 "Aurora Ave", withName segB1 "Beacon St", withName segB2 "Beacon St"] }

/-- The `night` candidate: `nightSegs` of `baseCandidates`. -/
def candNight : Candidate :=
  { key := "night"
    segs := [withName segA1 "Aurora Ave", withName segA2 "Aurora Ave"] }

/-- The `female` candidate: `femaleSegs` of `baseCandidates`. -/
def candFemale : Candidate :=
  { key := "female"
    segs := [withName segB1 "Beacon St", withName segA2 "Aurora Ave"] }

/-- The fixed candidate list `baseCandidates`, in declaration order. -/
def baseCandidates : List Candidate :=
  [candFastest, candSafest, candBalanced, candNight, candFemale]

/-- The initial Condition Store: every segment id mapped to the neutral record. -/
def condStoreInit : List (String × Condition) :=
  [("A1", condNeutral), ("A2", condNeutral), ("B1", condNeutral),
   ("B2", condNeutral), ("C1", condNeutral), ("C2", condNeutral)]

/-- The `routes` memo: every base candidate evaluated, in declaration order,
each evaluation sampling the clock at the single instant `now`. -/
def routesAt (ops : MathOps) (now : ℚ) (conds : List (String × Condition))
    (horizon : ℚ) (prefs : Prefs) : List EvaluatedRoute :=
  baseCandidates.map (evaluateAt ops now conds horizon prefs)

/-- The suggestion payload held in component state. -/
structure Suggestion where
  best : EvaluatedRoute
  timeSaved : ℚ
  safetyGain : ℚ
deriving DecidableEq

/-- The reducer `(a, b) => (a.score > b.score ? a : b)` of the suggestion
effect: keeps the accumulator only on a strictly greater score, so the
later element wins ties. -/
def pickBetter (a b : EvaluatedRoute) : EvaluatedRoute :=
  if a.score > b.score then a else b

/-- The suggestion effect body: `best` is the JavaScript
`Object.values(routes).reduce((a, b) => (a.score > b.score ? a : b))`;
on an empty route set or a missing active key the effect returns early,
leaving the previous value. -/
def suggestionEffect (routes : List EvaluatedRoute) (activeKey : String)
    (prev : Option Suggestion) : Option Suggestion :=
  match routes.find? (fun r => r.key == activeKey), routes with
  | some active, r0 :: rest =>
    let best := rest.foldl pickBetter r0
    if best.key ≠ active.key then
      some { best := best
             timeSaved := max 0 (active.etaMin - best.etaMin)
             safetyGain := max 0 (best.avgSafety - active.avgSafety) }
    else none
  | _, _ => prev

/-- The advancement increment of one Progress Simulator tick:
`Math.max(1, Math.round(points.length / (totalTimeMs / dt)))` with
`totalTimeMs = etaMin * 60 * 1000` and `dt = 250`. -/
def idxIncOf (pathLen : ℕ) (etaMin : ℚ) : ℕ :=
  (max 1 (jsRound ((pathLen : ℚ) / (etaMin * 60 * 1000 / 250)))).toNat

/-- One Progress Simulator tick on the path index:
`Math.min(points.length - 1, cur.idx + idxInc)`. -/
def stepIdx (pathLen : ℕ) (etaMin : ℚ) (idx : ℕ) : ℕ :=
  min (pathLen - 1) (idx + idxIncOf pathLen etaMin)

/-- The relevant component state of `MapView` (progress is `{idx, t}`). -/
structure MapState where
  profileKey : String
  progress : ℕ × ℚ
  suggestion : Option Suggestion
  prevRoute : Option EvaluatedRoute
  showCompare : Bool
deriving DecidableEq

/-- `acceptSuggestion` of the source: switch the profile key to the suggested
route, remember the old route, show the comparison, clear the suggestion.
`active` is the currently active evaluated route being saved. -/
def acceptSuggestion (active : EvaluatedRoute) (st : MapState) : MapState :=
  match st.suggestion with
  | none => st
  | some s =>
    { st with prevRoute := some active
              profileKey := s.best.key
              showCompare := true
              suggestion := none }

/-- An upcoming maneuver: anchor point and instruction label. -/
structure Maneuver where
  point : Coord
  label : String
deriving DecidableEq

/-- The `maneuvers` memo: one entry per transition between consecutive
segments of the active candidate, anchored at the next segment's first
coordinate. -/
def maneuversOf (c : Candidate) : List Maneuver :=
  (c.segs.zip c.segs.tail).map fun st =>
    { point := st.2.coords.getD 0 (0, 0)
      label := "Then continue to " ++ st.2.name }

/-- The built path of a candidate. -/
def pathOf (c : Candidate) : List Coord := buildPath c.segs

/-- JavaScript `Array.findIndex`: first matching index, or -1. -/
def jsFindIndex (l : List Coord) (pt : Coord) : ℤ :=
  match l.findIdx? (fun p => decide (p = pt)) with
  | some i => (i : ℤ)
  | none => -1

/-- The body of the `maneuvers.forEach` loop of the `currentManeuver` memo:
keep a maneuver whose anchor's first path index is strictly ahead of the
progress index and less than the best index so far. -/
def cmStep (path : List Coord) (idx : ℕ) (best : Option (Maneuver × ℤ)) (m : Maneuver) :
    Option (Maneuver × ℤ) :=
  if decide (jsFindIndex path m.point > (idx : ℤ)) && (match best with
    | none => true
    | some b => decide (jsFindIndex path m.point < b.2)) then
    some (m, jsFindIndex path m.point)
  else best

/-- The `currentManeuver` memo: among the maneuvers whose anchor's first
path index is strictly ahead of the progress index, the one with the least
such index (first encountered wins on equal indices). -/
def currentManeuver (path : List Coord) (ms : List Maneuver) (idx : ℕ) :
    Option (Maneuver × ℤ) :=
  ms.foldl (cmStep path idx) none

/-- The remaining path distance from the progress index to the maneuver's
path index, as summed in the voice effect. -/
def distanceAhead (d : Coord → Coord → ℚ) (path : List Coord) (idx : ℕ) (ni : ℤ) : ℚ :=
  let stop := (min ni ((path.length : ℤ) - 1)).toNat
  ((List.range' idx (stop - idx)).map fun i =>
    d (path.getD i (0, 0)) (path.getD (i + 1) (0, 0))).sum

/-- The voice effect body: if a current maneuver exists, is within 80 meters,
and its path index is not yet in the voiced set, announce it and record its
index; `d` is the distance function (haversine over the host math). -/
def voiceStep (d : Coord → Coord → ℚ) (path : List Coord) (ms : List Maneuver)
    (idx : ℕ) (voiced : List ℤ) : List ℤ × Option Maneuver :=
  match currentManeuver path ms idx with
  | none => (voiced, none)
  | some (m, ni) =>
    if distanceAhead d path idx ni < 80 ∧ ni ∉ voiced then (ni :: voiced, some m)
    else (voiced, none)

/-- A run of the voice effect over a sequence of observations
(path and maneuvers of the then-active candidate, progress index); the
voiced set persists across the whole run because `voicedRef` is never
cleared.  Returns the final voiced set and the announced maneuvers. -/
def runVoice (d : Coord → Coord → ℚ)
    (evts : List (List Coord × List Maneuver × ℕ)) : List ℤ × List Maneuver :=
  evts.foldl
    (fun acc evt =>
      let r := voiceStep d evt.1 evt.2.1 evt.2.2 acc.1
      (r.1, acc.2 ++ r.2.toList))
    ([], [])

/-! ### Concrete host-math instances and inputs used by the witnesses -/

/-- A degenerate host math: every transcendental returns 0, so every
haversine distance is 0; `pi` is large enough that `jsMod` is the identity
on the phases that occur. -/
def opsZero : MathOps :=
  { sin := fun _ => 0, cos := fun _ => 0, atan2 := fun _ _ => 0, sqrt := fun _ => 0, pi := 1000000 }

/-- A host math whose sine is the affine map `v - 115`, distinguishing the
phases of nearby clock readings; geometry collapses to distance 0. -/
def opsAff : MathOps :=
  { sin := fun v => v - 115, cos := fun _ => 0, atan2 := fun _ _ => 0, sqrt := fun _ => 0, pi := 1000000 }

/-- A host math whose sine is constantly -1, putting the prediction phase
at its lower extreme 0. -/
def opsSinLow : MathOps :=
  { sin := fun _ => -1, cos := fun _ => 0, atan2 := fun _ _ => 0, sqrt := fun _ => 0, pi := 1000000 }

/-- The initial preference weights of the component. -/
def prefs0 : Prefs := { avoidBusy := 0.4, preferLit := 0.6, comfort := 0.6 }

/-- A distance function that is constantly 0 (haversine under `opsZero`). -/
def dzero : Coord → Coord → ℚ := fun _ _ => 0

/-- A clock that advances between the first and the second read. -/
def clockSplit : ℕ → ℚ := fun i => if i = 0 then 0 else 100000

/-- A minimal evaluated-route value with a given key and score, used as a
state-space point for the suggestion and accept transitions. -/
def routeStub (k : String) (sc : ℚ) : EvaluatedRoute :=
  { key := k, segs := [], path := [], total := 0, etaMin := 0, steps := [],
    colored := [], avgSafety := 0, avgCrowd := 0, score := sc }

/-- A component state mid-drive: balanced profile, progress index 5, with a
pending suggestion towards the safest route. -/
def stProbe : MapState :=
  { profileKey := "balanced"
    progress := (5, 0)
    suggestion := some { best := routeStub "safest" 1, timeSaved := 0, safetyGain := 0 }
    prevRoute := none
    showCompare := false }

/-- The first maneuver of the fastest candidate (the C1 to C2 transition). -/
def mProbe : Maneuver :=
  { point := (37.7725, -122.418), label := "Then continue to Cobalt Blvd" }

/-- The first step descriptor of the night candidate evaluated under the
all-zero host math at time 0 with the neutral store and horizon 15. -/
def stepProbe : Step :=
  { instruction := "Head onto Aurora Ave", street := "Aurora Ave", distance := 0,
    safety := 58.75, note := none }

/-! ### General helper lemmas -/

/-- Truncation of a rational in `[0, 1)` is 0. -/
theorem ratTrunc_eq_zero (q : ℚ) (h0 : 0 ≤ q) (h1 : q < 1) : ratTrunc q = 0 := by
  apply Int.tdiv_eq_zero_of_lt (Rat.num_nonneg.mpr h0)
  have hden : (0 : ℚ) < (q.den : ℚ) := by exact_mod_cast q.pos
  have hnum : (q.num : ℚ) = q * (q.den : ℚ) :=
    (div_eq_iff hden.ne').mp (Rat.num_div_den q)
  have hq : (q.num : ℚ) < (q.den : ℚ) := by nlinarith
  exact_mod_cast hq

/-- The JavaScript remainder is the identity below the modulus. -/
theorem jsMod_eq_self (x y : ℚ) (hx : 0 ≤ x) (hxy : x < y) : jsMod x y = x := by
  have hy : 0 < y := lt_of_le_of_lt hx hxy
  have h1 : x / y < 1 := (div_lt_one hy).mpr hxy
  have h0 : 0 ≤ x / y := div_nonneg hx hy.le
  simp [jsMod, ratTrunc_eq_zero _ h0 h1]

/-- The prediction seed of segment id A1. -/
theorem seedOf_A1 : seedOf "A1" = 114 := rfl

/-- The prediction seed of segment id A2. -/
theorem seedOf_A2 : seedOf "A2" = 115 := rfl

/-- The prediction seed of segment id B1. -/
theorem seedOf_B1 : seedOf "B1" = 115 := rfl

/-- The prediction seed of segment id B2. -/
theorem seedOf_B2 : seedOf "B2" = 116 := rfl

/-- The prediction seed of segment id C1. -/
theorem seedOf_C1 : seedOf "C1" = 116 := rfl

/-- The prediction seed of segment id C2. -/
theorem seedOf_C2 : seedOf "C2" = 117 := rfl

/-- The lighting penalties of the network's segment ids. -/
theorem lightingPenalty_eval :
    lightingPenalty "A1" = 2 ∧ lightingPenalty "A2" = 2 ∧ lightingPenalty "B1" = 0 ∧
    lightingPenalty "B2" = 0 ∧ lightingPenalty "C1" = 8 ∧ lightingPenalty "C2" = 8 :=
  ⟨rfl, rfl, rfl, rfl, rfl, rfl⟩

/-- Looking any network segment id up in the initial store yields the
neutral condition. -/
theorem lookupCond_init :
    lookupCond condStoreInit "A1" = condNeutral ∧ lookupCond condStoreInit "A2" = condNeutral ∧
    lookupCond condStoreInit "B1" = condNeutral ∧ lookupCond condStoreInit "B2" = condNeutral ∧
    lookupCond condStoreInit "C1" = condNeutral ∧ lookupCond condStoreInit "C2" = condNeutral :=
  ⟨rfl, rfl, rfl, rfl, rfl, rfl⟩

/-- Under the all-zero host math, every haversine distance is 0. -/
theorem haversineDistance_opsZero (a b : Coord) : haversineDistance opsZero a b = 0 := by
  norm_num [haversineDistance, toRad, opsZero]

/-- Under the all-zero host math, every path length is 0. -/
theorem pathDistance_opsZero (path : List Coord) : pathDistance opsZero path = 0 := by
  have aux : ∀ (z : List (Coord × Coord)) (acc : ℚ),
      z.foldl (fun total pq => total + haversineDistance opsZero pq.1 pq.2) acc = acc := by
    intro z
    induction z with
    | nil => intro acc; rfl
    | cons p t ih =>
      intro acc
      rw [List.foldl_cons, haversineDistance_opsZero, add_zero]
      exact ih acc
  exact aux _ 0

/-- The evaluation loop under the all-zero host math leaves all four numeric
accumulators unchanged (every segment contributes distance 0). -/
theorem foldl_evalStep_opsZero (clock : ℕ → ℚ) (conds : List (String × Condition))
    (horizon : ℚ) (l : List (ℕ × Segment)) (acc : EvalAcc) :
    (l.foldl (evalStep opsZero clock conds horizon) acc).totalMeters = acc.totalMeters ∧
    (l.foldl (evalStep opsZero clock conds horizon) acc).totalTimeH = acc.totalTimeH ∧
    (l.foldl (evalStep opsZero clock conds horizon) acc).safetySum = acc.safetySum ∧
    (l.foldl (evalStep opsZero clock conds horizon) acc).crowdSum = acc.crowdSum := by
  induction l generalizing acc with
  | nil => exact ⟨rfl, rfl, rfl, rfl⟩
  | cons x t ih =>
    simp only [List.foldl_cons]
    have h := ih (evalStep opsZero clock conds horizon acc x)
    have hstep : (evalStep opsZero clock conds horizon acc x).totalMeters = acc.totalMeters ∧
        (evalStep opsZero clock conds horizon acc x).totalTimeH = acc.totalTimeH ∧
        (evalStep opsZero clock conds horizon acc x).safetySum = acc.safetySum ∧
        (evalStep opsZero clock conds horizon acc x).crowdSum = acc.crowdSum := by
      simp [evalStep, pathDistance_opsZero]
    exact ⟨h.1.trans hstep.1, h.2.1.trans hstep.2.1, h.2.2.1.trans hstep.2.2.1,
      h.2.2.2.trans hstep.2.2.2⟩

/-- The key of an evaluated route is the candidate's key. -/
theorem evaluate_key (ops : MathOps) (clock : ℕ → ℚ) (conds : List (String × Condition))
    (horizon : ℚ) (prefs : Prefs) (c : Candidate) :
    (evaluate ops clock conds horizon prefs c).key = c.key := rfl

/-- Under the all-zero host math every candidate's score is exactly 0. -/
theorem evaluate_opsZero_score (clock : ℕ → ℚ) (conds : List (String × Condition))
    (horizon : ℚ) (prefs : Prefs) (c : Candidate) :
    (evaluate opsZero clock conds horizon prefs c).score = 0 := by
  have h := foldl_evalStep_opsZero clock conds horizon c.segs.enum
    { totalMeters := 0, totalTimeH := 0, safetySum := 0, crowdSum := 0, steps := [] }
  show (c.segs.enum.foldl (evalStep opsZero clock conds horizon)
    { totalMeters := 0, totalTimeH := 0, safetySum := 0, crowdSum := 0, steps := [] }).safetySum /
      max (c.segs.enum.foldl (evalStep opsZero clock conds horizon)
        { totalMeters := 0, totalTimeH := 0, safetySum := 0, crowdSum := 0, steps := [] }).totalMeters 1 /
      100 * (0.5 + prefs.preferLit * 0.5) -
    (c.segs.enum.foldl (evalStep opsZero clock conds horizon)
      { totalMeters := 0, totalTimeH := 0, safetySum := 0, crowdSum := 0, steps := [] }).totalTimeH * 60 /
      30 * (0.5 + (1 - prefs.comfort) * 0.5) -
    (c.segs.enum.foldl (evalStep opsZero clock conds horizon)
      { totalMeters := 0, totalTimeH := 0, safetySum := 0, crowdSum := 0, steps := [] }).crowdSum /
      max (c.segs.enum.foldl (evalStep opsZero clock conds horizon)
        { totalMeters := 0, totalTimeH := 0, safetySum := 0, crowdSum := 0, steps := [] }).totalMeters 1 *
      prefs.avoidBusy * 0.8 = 0
  rw [h.1, h.2.1, h.2.2.1, h.2.2.2]
  norm_num

/-- Keeping every enumerated point recovers the list. -/
theorem enumFrom_filterMap_keep (cs : List Coord) :
    ∀ n : ℕ, (cs.enumFrom n).filterMap (fun ipt => some ipt.2) = cs := by
  induction cs with
  | nil => intro n; rfl
  | cons a t ih =>
    intro n
    simp only [List.enumFrom_cons, List.filterMap_cons]
    rw [ih (n + 1)]

/-- Dropping the points of inner index 0 from an enumeration starting at a
positive index drops nothing. -/
theorem enumFrom_filterMap_pos (cs : List Coord) :
    ∀ n : ℕ, (cs.enumFrom (n + 1)).filterMap
      (fun ipt => if ipt.1 = 0 then none else some ipt.2) = cs := by
  induction cs with
  | nil => intro n; rfl
  | cons a t ih =>
    intro n
    simp only [List.enumFrom_cons, List.filterMap_cons, Nat.succ_ne_zero, if_false]
    rw [ih (n + 1)]

/-- Dropping the point of inner index 0 from a fresh enumeration drops
exactly the head. -/
theorem enum_filterMap_drop_head (cs : List Coord) :
    cs.enum.filterMap (fun ipt => if ipt.1 = 0 then none else some ipt.2) = cs.tail := by
  cases cs with
  | nil => rfl
  | cons a t =>
    simp only [List.enum_cons, List.filterMap_cons, if_pos rfl]
    exact enumFrom_filterMap_pos t 0

/-- Every segment enumerated at a positive outer index contributes exactly
its coordinate tail to the built path. -/
theorem enumFrom_flatMap_tail (rest : List Segment) :
    ∀ n : ℕ, (rest.enumFrom (n + 1)).flatMap
      (fun iseg => iseg.2.coords.enum.filterMap
        fun ipt => if 0 < iseg.1 ∧ ipt.1 = 0 then none else some ipt.2) =
    rest.flatMap (fun t => t.coords.tail) := by
  induction rest with
  | nil => intro n; rfl
  | cons s t ih =>
    intro n
    simp only [List.enumFrom_cons, List.flatMap_cons, Nat.succ_pos, true_and]
    rw [enum_filterMap_drop_head s.coords, ih (n + 1)]

/-- Folding the suggestion reducer over routes that all score strictly below
the accumulator returns the accumulator. -/
theorem foldl_pickBetter_const (l : List EvaluatedRoute) :
    ∀ acc : EvaluatedRoute, (∀ r ∈ l, r.score < acc.score) → l.foldl pickBetter acc = acc := by
  induction l with
  | nil => intro acc _; rfl
  | cons b t ih =>
    intro acc h
    rw [List.foldl_cons]
    have hb : b.score < acc.score := h b (List.mem_cons_self b t)
    have : pickBetter acc b = acc := if_pos hb
    rw [this]
    exact ih acc fun r hr => h r (List.mem_cons_of_mem b hr)

/-- Folding the suggestion reducer over routes scoring strictly below `s`
keeps the result strictly below `s` when the accumulator is. -/
theorem foldl_pickBetter_lt (s : ℚ) (l : List EvaluatedRoute) :
    ∀ acc : EvaluatedRoute, acc.score < s → (∀ r ∈ l, r.score < s) →
      (l.foldl pickBetter acc).score < s := by
  induction l with
  | nil => intro acc ha _; exact ha
  | cons b t ih =>
    intro acc ha h
    rw [List.foldl_cons]
    have hb : b.score < s := h b (List.mem_cons_self b t)
    have hp : (pickBetter acc b).score < s := by
      unfold pickBetter
      split
      · exact ha
      · exact hb
    exact ih (pickBetter acc b) hp fun r hr => h r (List.mem_cons_of_mem b hr)

/-- The suggestion reducer keeps the second argument whenever the first
does not strictly exceed it: ties go to the later element. -/
theorem pickBetter_le (a b : EvaluatedRoute) (h : a.score ≤ b.score) :
    pickBetter a b = b :=
  if_neg (not_lt.mpr h)

/-- Every step the evaluation loop appends has its safety clamped to
`[0, 100]`. -/
theorem foldl_evalStep_safety (ops : MathOps) (clock : ℕ → ℚ)
    (conds : List (String × Condition)) (horizon : ℚ) (l : List (ℕ × Segment)) :
    ∀ (acc : EvalAcc) (s : Step),
      s ∈ (l.foldl (evalStep ops clock conds horizon) acc).steps →
      s ∈ acc.steps ∨ (0 ≤ s.safety ∧ s.safety ≤ 100) := by
  induction l with
  | nil => intro acc s hs; exact Or.inl hs
  | cons x t ih =>
    intro acc s hs
    rw [List.foldl_cons] at hs
    rcases ih (evalStep ops clock conds horizon acc x) s hs with h | h
    · obtain ⟨st, heq, h0, h100⟩ : ∃ st : Step,
          (evalStep ops clock conds horizon acc x).steps = acc.steps ++ [st] ∧
          0 ≤ st.safety ∧ st.safety ≤ 100 :=
        ⟨_, rfl, le_max_left 0 _, max_le (by norm_num) (min_le_left _ _)⟩
      rw [heq] at h
      rcases List.mem_append.mp h with h1 | h1
      · exact Or.inl h1
      · rcases List.mem_singleton.mp h1 with rfl
        exact Or.inr ⟨h0, h100⟩
    · exact Or.inr h

/-- A nonnegative JavaScript find index certifies membership. -/
theorem jsFindIndex_nonneg_mem (l : List Coord) (pt : Coord) :
    0 ≤ jsFindIndex l pt → pt ∈ l := by
  unfold jsFindIndex
  rcases h : l.findIdx? (fun p => decide (p = pt)) with _ | i
  · intro hle; exact absurd hle (by norm_num)
  · intro _
    have hsome : (l.findIdx? (fun p => decide (p = pt))).isSome = true := by rw [h]; rfl
    rw [List.findIdx?_isSome] at hsome
    rcases List.any_eq_true.mp hsome with ⟨x, hx, hpx⟩
    exact (of_decide_eq_true hpx) ▸ hx

/-- What a single maneuver-fold step can return: the previous best, or the
new maneuver paired with its find index, which is then strictly ahead. -/
theorem cmStep_some (path : List Coord) (idx : ℕ) (best : Option (Maneuver × ℤ))
    (a m : Maneuver) (ni : ℤ) :
    cmStep path idx best a = some (m, ni) →
    best = some (m, ni) ∨ (m = a ∧ ni = jsFindIndex path a.point ∧ (idx : ℤ) < ni) := by
  intro he
  cases best with
  | none =>
    simp only [cmStep, Bool.and_true, decide_eq_true_eq] at he
    split at he
    · rename_i hgt
      have hpair := Option.some.inj he
      obtain ⟨rfl, rfl⟩ : a = m ∧ jsFindIndex path a.point = ni :=
        ⟨congrArg Prod.fst hpair, congrArg Prod.snd hpair⟩
      exact Or.inr ⟨rfl, rfl, hgt⟩
    · exact Option.noConfusion he
  | some b =>
    simp only [cmStep, Bool.and_eq_true, decide_eq_true_eq] at he
    split at he
    · rename_i hcond
      have hpair := Option.some.inj he
      obtain ⟨rfl, rfl⟩ : a = m ∧ jsFindIndex path a.point = ni :=
        ⟨congrArg Prod.fst hpair, congrArg Prod.snd hpair⟩
      exact Or.inr ⟨rfl, rfl, hcond.1⟩
    · exact Or.inl he

/-- If the maneuver fold returns a result, its anchor occurs in the path. -/
theorem currentManeuver_point_mem (path : List Coord) (ms : List Maneuver) (idx : ℕ) :
    ∀ m ni, currentManeuver path ms idx = some (m, ni) → m.point ∈ path := by
  have inv : ∀ (l : List Maneuver) (best : Option (Maneuver × ℤ)),
      (∀ m ni, best = some (m, ni) → m.point ∈ path) →
      ∀ m ni, l.foldl (cmStep path idx) best = some (m, ni) → m.point ∈ path := by
    intro l
    induction l with
    | nil => intro best hbest m ni h; exact hbest m ni h
    | cons a t ih =>
      intro best hbest m ni h
      refine ih _ ?_ m ni h
      intro m2 ni2 h2
      rcases cmStep_some path idx best a m2 ni2 h2 with hprev | ⟨rfl, rfl, hgt⟩
      · exact hbest m2 ni2 hprev
      · exact jsFindIndex_nonneg_mem path m2.point (le_trans (Int.ofNat_nonneg idx) hgt.le)
  intro m ni h
  exact inv ms none (by intro m ni h; cases h) m ni h

/-- The built path of a nonempty segment list: the head's full coordinate
sequence followed by every later segment's coordinate tail. -/
theorem buildPath_cons_eq (s : Segment) (rest : List Segment) :
    buildPath (s :: rest) = s.coords ++ rest.flatMap (fun t => t.coords.tail) := by
  unfold buildPath
  rw [List.enum_cons, List.flatMap_cons]
  congr 1
  · simp only [lt_self_iff_false, false_and, if_false]
    exact enumFrom_filterMap_keep s.coords 0
  · exact enumFrom_flatMap_tail rest 0

/-- A voice announcement only ever reports the current maneuver. -/
theorem voiceStep_some (d : Coord → Coord → ℚ) (path : List Coord) (ms : List Maneuver)
    (idx : ℕ) (voiced : List ℤ) (m : Maneuver) :
    (voiceStep d path ms idx voiced).2 = some m →
    ∃ ni, currentManeuver path ms idx = some (m, ni) := by
  rcases hc : currentManeuver path ms idx with _ | ⟨m2, ni2⟩
  · intro h
    have hv : voiceStep d path ms idx voiced = (voiced, none) := by
      unfold voiceStep
      rw [hc]
    rw [hv] at h
    exact Option.noConfusion h
  · intro h
    have hv : voiceStep d path ms idx voiced =
        if distanceAhead d path idx ni2 < 80 ∧ ni2 ∉ voiced then (ni2 :: voiced, some m2)
        else (voiced, none) := by
      unfold voiceStep
      rw [hc]
    rw [hv] at h
    split at h
    · rcases Option.some.inj h with rfl
      exact ⟨ni2, rfl⟩
    · exact Option.noConfusion h

/-! ### Claims -/

/-- Claim C1 (amended): `evaluate` is deterministic for a fixed input tuple
once the wall clock is held fixed: if every `Date.now()` read during the
evaluation returns the same instant `now`, the result is exactly the
once-sampled evaluation at `now`, so two such calls agree bit for bit.
The code, however, samples the clock once per `predict` call (once per
segment in the metric loop and once more per segment in the coloring pass),
not once per evaluation. -/
theorem evaluate_deterministic_when_clock_constant (ops : MathOps) (clock : ℕ → ℚ)
    (conds : List (String × Condition)) (horizon : ℚ) (prefs : Prefs) (c : Candidate)
    (now : ℚ) (h : ∀ i, clock i = now) :
    evaluate ops clock conds horizon prefs c = evaluateAt ops now conds horizon prefs c := by
  have hc : clock = fun _ => now := funext h
  rw [evaluateAt, hc]

/-- Claim C1 witness: the constant-zero clock satisfies the hypothesis and
the theorem applies to it. -/
theorem evaluate_deterministic_when_clock_constant_witness :
    evaluate opsZero (fun _ => 0) condStoreInit 15 prefs0 candNight =
    evaluateAt opsZero 0 condStoreInit 15 prefs0 candNight :=
  evaluate_deterministic_when_clock_constant opsZero (fun _ => 0) condStoreInit 15 prefs0
    candNight 0 fun _ => rfl

/-- Claim C1 counterexample: with a wall clock that advances between the
reads of one evaluation, the per-segment steps differ from the evaluation
sampled once at the starting instant, so `Date.now()` is read once per
`predict` call rather than once per evaluation. -/
theorem evaluate_clock_sampled_per_call_cx :
    (evaluate opsAff clockSplit condStoreInit 15 prefs0 candNight).steps ≠
    (evaluateAt opsAff (clockSplit 0) condStoreInit 15 prefs0 candNight).steps := by
  norm_num [evaluateAt, evaluate, evalStep, buildPath, pathDistance, haversineDistance, toRad,
    jsMod_eq_self, seedOf_A1, seedOf_A2, lookupCond_init.1, lookupCond_init.2.1,
    lightingPenalty_eval.1, lightingPenalty_eval.2.1, condNeutral, predict, opsAff, clockSplit,
    prefs0, candNight, withName, segA1, segA2, routeSafetyColor, List.enum, List.enumFrom,
    List.foldl, List.zip, List.zipWith, List.filterMap, List.flatMap]

/-- Claim C2 (amended): `buildPath` concatenates the segments' coordinate
sequences in order, always omitting the first point of every segment after
the first, whether or not it duplicates the last point of the previous
segment. -/
theorem buildPath_always_omits_following_heads :
    buildPath [] = [] ∧
    ∀ (s : Segment) (rest : List Segment),
      buildPath (s :: rest) = s.coords ++ rest.flatMap (fun t => t.coords.tail) :=
  ⟨rfl, buildPath_cons_eq⟩

/-- Claim C2 counterexample: segments C2 and A2 do not share an endpoint,
yet `buildPath` still omits A2's first point instead of keeping it joined
by a synthetic edge. -/
theorem buildPath_omits_nonduplicate_join_cx :
    segC2.coords.getLast? = some (37.7715, -122.413) ∧
    segA2.coords.head? = some (37.7772, -122.416) ∧
    ((37.7715 : ℚ), (-122.413 : ℚ)) ≠ ((37.7772 : ℚ), (-122.416 : ℚ)) ∧
    buildPath [segC2, segA2] = segC2.coords ++ segA2.coords.tail := by
  refine ⟨rfl, rfl, ?_, ?_⟩
  · norm_num [Prod.ext_iff]
  · rw [buildPath_cons_eq]
    rfl

/-- Claim C3 (amended): one Progress Simulator tick never advances the path
index beyond the last path index, but switching the active candidate by
accepting a suggestion does not reset the progress state: it is left
unchanged. -/
theorem progress_clamped_and_switch_keeps_progress :
    (∀ (pathLen : ℕ) (etaMin : ℚ) (idx : ℕ), stepIdx pathLen etaMin idx ≤ pathLen - 1) ∧
    (∀ (active : EvaluatedRoute) (st : MapState),
      (acceptSuggestion active st).progress = st.progress) := by
  constructor
  · intro pathLen etaMin idx
    exact min_le_left _ _
  · intro active st
    unfold acceptSuggestion
    rcases st.suggestion with _ | s
    · rfl
    · rfl

/-- Claim C3 counterexample: accepting the pending suggestion switches the
profile key but leaves the progress index at 5 instead of resetting it
to 0. -/
theorem acceptSuggestion_no_reset_cx :
    (acceptSuggestion (routeStub "balanced" 0) stProbe).profileKey ≠ stProbe.profileKey ∧
    (acceptSuggestion (routeStub "balanced" 0) stProbe).progress.1 = 5 ∧
    (5 : ℕ) ≠ 0 := by
  refine ⟨?_, rfl, by norm_num⟩
  decide

/-- Claim C6 (amended): for any host sine bounded in `[-1, 1]` and horizons
in `(0, 30]`, the forecast speed multiplier lies between `5/6` and `10/9`
(so it may exceed 1), and it is antitone in the horizon. -/
theorem predict_speedFactor_bounded_antitone (ops : MathOps) (segId : String)
    (now h1 h2 : ℚ)
    (hs1 : -1 ≤ ops.sin (jsMod (now / 100000 + (seedOf segId : ℚ)) ops.pi))
    (hs2 : ops.sin (jsMod (now / 100000 + (seedOf segId : ℚ)) ops.pi) ≤ 1)
    (hp1 : 0 < h1) (h12 : h1 ≤ h2) (h230 : h2 ≤ 30) :
    5 / 6 ≤ (predict ops segId h2 now).speedFactor ∧
    (predict ops segId h2 now).speedFactor ≤ (predict ops segId h1 now).speedFactor ∧
    (predict ops segId h1 now).speedFactor ≤ 10 / 9 := by
  have hsf : ∀ h : ℚ, (predict ops segId h now).speedFactor =
      1 / (0.9 + 0.3 * ((ops.sin (jsMod (now / 100000 + (seedOf segId : ℚ)) ops.pi) + 1) / 2) *
        (h / 30)) := fun h => rfl
  set s := ops.sin (jsMod (now / 100000 + (seedOf segId : ℚ)) ops.pi) with hsdef
  have hp0 : 0 ≤ (s + 1) / 2 := by linarith
  have hpu : (s + 1) / 2 ≤ 1 := by linarith
  have hc1lo : (0.9 : ℚ) ≤ 0.9 + 0.3 * ((s + 1) / 2) * (h1 / 30) := by nlinarith
  have hc2lo : (0.9 : ℚ) ≤ 0.9 + 0.3 * ((s + 1) / 2) * (h2 / 30) := by nlinarith
  have hc2hi : 0.9 + 0.3 * ((s + 1) / 2) * (h2 / 30) ≤ (6 / 5 : ℚ) := by nlinarith
  have hc12 : 0.9 + 0.3 * ((s + 1) / 2) * (h1 / 30) ≤
      0.9 + 0.3 * ((s + 1) / 2) * (h2 / 30) := by nlinarith
  have hc1pos : (0 : ℚ) < 0.9 + 0.3 * ((s + 1) / 2) * (h1 / 30) := by linarith
  have hc2pos : (0 : ℚ) < 0.9 + 0.3 * ((s + 1) / 2) * (h2 / 30) := by linarith
  refine ⟨?_, ?_, ?_⟩
  · rw [hsf h2]
    calc (5 / 6 : ℚ) = 1 / (6 / 5) := by norm_num
    _ ≤ 1 / (0.9 + 0.3 * ((s + 1) / 2) * (h2 / 30)) :=
      one_div_le_one_div_of_le hc2pos hc2hi
  · rw [hsf h1, hsf h2]
    exact one_div_le_one_div_of_le hc1pos hc12
  · rw [hsf h1]
    calc 1 / (0.9 + 0.3 * ((s + 1) / 2) * (h1 / 30)) ≤ 1 / (0.9 : ℚ) :=
      one_div_le_one_div_of_le (by norm_num) hc1lo
    _ = 10 / 9 := by norm_num

/-- Claim C6 witness: under the all-zero host sine (bounded in `[-1, 1]`)
with horizons 10 and 20, the theorem's bounds and antitonicity hold. -/
theorem predict_speedFactor_bounded_antitone_witness :
    5 / 6 ≤ (predict opsZero "A1" 20 0).speedFactor ∧
    (predict opsZero "A1" 20 0).speedFactor ≤ (predict opsZero "A1" 10 0).speedFactor ∧
    (predict opsZero "A1" 10 0).speedFactor ≤ 10 / 9 :=
  predict_speedFactor_bounded_antitone opsZero "A1" 0 10 20 (by norm_num [opsZero])
    (by norm_num [opsZero]) (by norm_num) (by norm_num) (by norm_num)

/-- Claim C6 counterexample: under a host sine pinned at -1 (phase 0), the
forecast speed multiplier at horizon 15 equals `10/9`, which is not below
1. -/
theorem predict_speedFactor_above_one_cx :
    (predict opsSinLow "A1" 15 0).speedFactor = 10 / 9 ∧
    ¬(predict opsSinLow "A1" 15 0).speedFactor < 1 := by
  norm_num [predict, opsSinLow]

/-- Claim C7: the desirability score of every evaluated route equals
exactly `(avgSafety/100)*(0.5 + 0.5*preferLit)
- (etaMin/30)*(0.5 + 0.5*(1-comfort)) - avgCrowd*avoidBusy*0.8`. -/
theorem evaluate_score_formula (ops : MathOps) (clock : ℕ → ℚ)
    (conds : List (String × Condition)) (horizon : ℚ) (prefs : Prefs) (c : Candidate) :
    (evaluate ops clock conds horizon prefs c).score =
      (evaluate ops clock conds horizon prefs c).avgSafety / 100 *
        (0.5 + 0.5 * prefs.preferLit) -
      (evaluate ops clock conds horizon prefs c).etaMin / 30 *
        (0.5 + 0.5 * (1 - prefs.comfort)) -
      (evaluate ops clock conds horizon prefs c).avgCrowd * prefs.avoidBusy * 0.8 := by
  simp only [evaluate]
  ring

/-- Claim C8: the effective safety recorded on every step of every evaluated
route is clamped to `[0, 100]`, however extreme the base safety and the
condition and prediction adjustments are. -/
theorem evaluate_step_safety_clamped (ops : MathOps) (clock : ℕ → ℚ)
    (conds : List (String × Condition)) (horizon : ℚ) (prefs : Prefs) (c : Candidate)
    (s : Step) (hs : s ∈ (evaluate ops clock conds horizon prefs c).steps) :
    0 ≤ s.safety ∧ s.safety ≤ 100 := by
  have hs' : s ∈ (c.segs.enum.foldl (evalStep ops clock conds horizon)
      { totalMeters := 0, totalTimeH := 0, safetySum := 0, crowdSum := 0, steps := [] }).steps := hs
  rcases foldl_evalStep_safety ops clock conds horizon c.segs.enum _ s hs' with h | h
  · exact absurd h (List.not_mem_nil s)
  · exact h

/-- Claim C8 witness: the first step of the night candidate evaluated under
the all-zero host math is in the steps list and its safety is in bounds. -/
theorem evaluate_step_safety_clamped_witness :
    0 ≤ stepProbe.safety ∧ stepProbe.safety ≤ 100 := by
  have hsteps : (evaluateAt opsZero 0 condStoreInit 15 prefs0 candNight).steps =
      [stepProbe, ⟨"Continue along Aurora Ave", "Aurora Ave", 0, 51.75, none⟩] := by
    norm_num [evaluateAt, evaluate, evalStep, stepProbe, buildPath, pathDistance,
      haversineDistance, toRad, jsMod_eq_self, seedOf_A1, seedOf_A2, lookupCond_init.1,
      lookupCond_init.2.1, lightingPenalty_eval.1, lightingPenalty_eval.2.1, condNeutral,
      predict, opsZero, prefs0, candNight, withName, segA1, segA2, routeSafetyColor,
      List.enum, List.enumFrom, List.foldl, List.zip, List.zipWith, List.filterMap,
      List.flatMap]
    exact ⟨rfl, rfl⟩
  exact evaluate_step_safety_clamped opsZero (fun _ => 0) condStoreInit 15 prefs0 candNight
    stepProbe (hsteps ▸ List.mem_cons_self _ _)

/-- Claim C9: starting from the neutral initialization, after any number of
Condition Store ticks with any random draws, every segment's condition has
its speed factor in `[0.7, 1.3]`, its crowd in `[0, 1]`, and its safety
adjustment in `[-20, 20]`. -/
theorem conditions_always_in_bounds (rs : ℕ → String → ℚ × ℚ × ℚ) (n : ℕ)
    (e : String × Condition) (he : e ∈ tickStoreIter rs n condStoreInit) :
    0.7 ≤ e.2.speedFactor ∧ e.2.speedFactor ≤ 1.3 ∧
    0 ≤ e.2.crowd ∧ e.2.crowd ≤ 1 ∧
    -20 ≤ e.2.safetyAdj ∧ e.2.safetyAdj ≤ 20 := by
  induction n generalizing e with
  | zero =>
    have : e = ("A1", condNeutral) ∨ e = ("A2", condNeutral) ∨ e = ("B1", condNeutral) ∨
        e = ("B2", condNeutral) ∨ e = ("C1", condNeutral) ∨ e = ("C2", condNeutral) := by
      simpa [tickStoreIter, condStoreInit] using he
    rcases this with rfl | rfl | rfl | rfl | rfl | rfl <;> norm_num [condNeutral]
  | succ k ih =>
    have he' : e ∈ tickStore (rs k) (tickStoreIter rs k condStoreInit) := he
    rcases List.mem_map.mp he' with ⟨p, _, rfl⟩
    unfold tickCond
    refine ⟨le_max_left _ _, max_le (by norm_num) (min_le_left _ _), le_max_left _ _,
      max_le (by norm_num) (min_le_left _ _), le_max_left _ _,
      max_le (by norm_num) (min_le_left _ _)⟩

/-- Claim C9 witness: the initial store itself (zero ticks) contains segment
A1's neutral condition, and its fields are in bounds. -/
theorem conditions_always_in_bounds_witness :
    0.7 ≤ (("A1", condNeutral) : String × Condition).2.speedFactor ∧
    (("A1", condNeutral) : String × Condition).2.speedFactor ≤ 1.3 ∧
    0 ≤ (("A1", condNeutral) : String × Condition).2.crowd ∧
    (("A1", condNeutral) : String × Condition).2.crowd ≤ 1 ∧
    -20 ≤ (("A1", condNeutral) : String × Condition).2.safetyAdj ∧
    (("A1", condNeutral) : String × Condition).2.safetyAdj ≤ 20 :=
  conditions_always_in_bounds (fun _ _ => (0, 0, 0)) 0 ("A1", condNeutral)
    (List.mem_cons_self _ _)

/-- The built path of the fastest candidate, explicitly. -/
theorem pathF_eq : pathOf candFastest =
    [(37.7735, -122.4235), (37.773, -122.421), (37.7725, -122.418), (37.772, -122.4155),
     (37.7715, -122.413), (37.7783, -122.4135), (37.779, -122.4115)] := rfl

/-- The built path of the safest candidate, explicitly. -/
theorem pathS_eq : pathOf candSafest =
    [(37.7745, -122.419), (37.7752, -122.417), (37.776, -122.4145), (37.777, -122.412),
     (37.7778, -122.41)] := rfl

/-- The built path of the balanced candidate, explicitly. -/
theorem pathB_eq : pathOf candBalanced =
    [(37.776, -122.424), (37.7765, -122.421), (37.7768, -122.4185), (37.7772, -122.416),
     (37.7752, -122.417), (37.776, -122.4145), (37.777, -122.412), (37.7778, -122.41)] := rfl

/-- The built path of the female-friendly candidate, explicitly. -/
theorem pathFem_eq : pathOf candFemale =
    [(37.7745, -122.419), (37.7752, -122.417), (37.776, -122.4145), (37.7783, -122.4135),
     (37.779, -122.4115)] := rfl

/-- The maneuvers of the fastest candidate, explicitly. -/
theorem mansF_eq : maneuversOf candFastest =
    [mProbe, ⟨(37.7772, -122.416), "Then continue to Aurora Ave"⟩] := rfl

/-- The maneuvers of the safest candidate, explicitly. -/
theorem mansS_eq : maneuversOf candSafest =
    [⟨(37.776, -122.4145), "Then continue to Beacon St"⟩] := rfl

/-- The maneuvers of the balanced candidate, explicitly. -/
theorem mansB_eq : maneuversOf candBalanced =
    [⟨(37.7745, -122.419), "Then continue to Beacon St"⟩,
     ⟨(37.776, -122.4145), "Then continue to Beacon St"⟩] := rfl

/-- The maneuvers of the female-friendly candidate, explicitly. -/
theorem mansFem_eq : maneuversOf candFemale =
    [⟨(37.7772, -122.416), "Then continue to Aurora Ave"⟩] := rfl

/-- Claim C4 (amended): a boundary whose path index is already voiced never
announces again, and the voiced set is never re-armed: it only grows, and
no transition (including a route change, which leaves it untouched) removes
a recorded index, so after switching candidates the same boundary does not
announce again. -/
theorem voiced_once_and_never_rearmed :
    (∀ (d : Coord → Coord → ℚ) (path : List Coord) (ms : List Maneuver) (idx : ℕ)
      (voiced : List ℤ) (k : ℤ), k ∈ voiced → k ∈ (voiceStep d path ms idx voiced).1) ∧
    (∀ (d : Coord → Coord → ℚ) (path : List Coord) (ms : List Maneuver) (idx : ℕ)
      (voiced : List ℤ) (m : Maneuver) (ni : ℤ),
      currentManeuver path ms idx = some (m, ni) → ni ∈ voiced →
      (voiceStep d path ms idx voiced).2 = none) := by
  constructor
  · intro d path ms idx voiced k hk
    rcases hc : currentManeuver path ms idx with _ | ⟨m2, ni2⟩
    · have hv : voiceStep d path ms idx voiced = (voiced, none) := by
        unfold voiceStep
        rw [hc]
      rw [hv]
      exact hk
    · have hv : voiceStep d path ms idx voiced =
          if distanceAhead d path idx ni2 < 80 ∧ ni2 ∉ voiced then (ni2 :: voiced, some m2)
          else (voiced, none) := by
        unfold voiceStep
        rw [hc]
      rw [hv]
      split
      · exact List.mem_cons_of_mem _ hk
      · exact hk
  · intro d path ms idx voiced m ni hc hmem
    have hv : voiceStep d path ms idx voiced =
        if distanceAhead d path idx ni < 80 ∧ ni ∉ voiced then (ni :: voiced, some m)
        else (voiced, none) := by
      unfold voiceStep
      rw [hc]
    rw [hv, if_neg fun hcond => hcond.2 hmem]

/-- Claim C4 witness: on the fastest route at progress index 1, the first
boundary (path index 2) is the current maneuver; with index 2 already
voiced, it stays voiced and nothing is announced. -/
theorem voiced_once_and_never_rearmed_witness :
    currentManeuver (pathOf candFastest) (maneuversOf candFastest) 1 = some (mProbe, 2) ∧
    (2 : ℤ) ∈ (voiceStep dzero (pathOf candFastest) (maneuversOf candFastest) 1 [2]).1 ∧
    (voiceStep dzero (pathOf candFastest) (maneuversOf candFastest) 1 [2]).2 = none := by
  have hcm : currentManeuver (pathOf candFastest) (maneuversOf candFastest) 1 =
      some (mProbe, 2) := by
    rw [pathF_eq, mansF_eq]
    norm_num [currentManeuver, cmStep, jsFindIndex, mProbe, List.findIdx?, List.foldl,
      Prod.ext_iff]
  exact ⟨hcm, voiced_once_and_never_rearmed.1 dzero _ _ 1 [2] 2 (by simp),
    voiced_once_and_never_rearmed.2 dzero _ _ 1 [2] mProbe 2 hcm (by simp)⟩

/-- Claim C4 counterexample: the fastest route's first boundary announces at
progress index 1; after switching to the safest route (whose boundary also
sits at path index 2) and even after switching back to the fastest route
and approaching the very same boundary again, nothing further is announced:
the trigger state is never re-armed by a route change. -/
theorem voiced_not_rearmed_on_route_change_cx :
    runVoice dzero
      [(pathOf candFastest, maneuversOf candFastest, 1),
       (pathOf candSafest, maneuversOf candSafest, 1),
       (pathOf candFastest, maneuversOf candFastest, 1)] = ([2], [mProbe]) := by
  rw [pathF_eq, pathS_eq, mansF_eq, mansS_eq]
  norm_num [runVoice, voiceStep, currentManeuver, cmStep, jsFindIndex, distanceAhead,
    mProbe, dzero, List.findIdx?, List.foldl, List.range', Prod.ext_iff]

/-- Claim C5 (amended): the suggestion effect reports no suggestion when the
active route's score strictly exceeds every other evaluated route's score;
on a tie for the maximum the reduce keeps the later-enumerated route, so a
tie between the active route and a later candidate yields a suggestion. -/
theorem suggestion_none_when_active_strictly_max (routes : List EvaluatedRoute)
    (activeKey : String) (prev : Option Suggestion) (active : EvaluatedRoute)
    (l1 l2 : List EvaluatedRoute) (hsplit : routes = l1 ++ active :: l2)
    (hfind : routes.find? (fun r => r.key == activeKey) = some active)
    (hlt : ∀ r, r ∈ l1 ∨ r ∈ l2 → r.score < active.score) :
    suggestionEffect routes activeKey prev = none := by
  subst hsplit
  unfold suggestionEffect
  rw [hfind]
  cases l1 with
  | nil =>
    simp only [List.nil_append]
    have hbest : l2.foldl pickBetter active = active :=
      foldl_pickBetter_const l2 active fun r hr => hlt r (Or.inr hr)
    rw [hbest, if_neg fun hne => hne rfl]
  | cons a t =>
    simp only [List.cons_append]
    have ha : a.score < active.score := hlt a (Or.inl (List.mem_cons_self a t))
    have hbest : (t ++ active :: l2).foldl pickBetter a = active := by
      rw [List.foldl_append]
      have ht : (t.foldl pickBetter a).score < active.score :=
        foldl_pickBetter_lt active.score t a ha
          fun r hr => hlt r (Or.inl (List.mem_cons_of_mem a hr))
      rw [List.foldl_cons]
      have hpk : pickBetter (t.foldl pickBetter a) active = active :=
        if_neg (not_lt_of_lt ht)
      rw [hpk]
      exact foldl_pickBetter_const l2 active fun r hr => hlt r (Or.inr hr)
    rw [hbest, if_neg fun hne => hne rfl]

/-- Claim C5 witness: with two stub routes scoring 1 and 0 and the first
one active, the suggestion effect reports nothing. -/
theorem suggestion_none_when_active_strictly_max_witness :
    suggestionEffect [routeStub "fastest" 1, routeStub "safest" 0] "fastest" none = none := by
  refine suggestion_none_when_active_strictly_max _ "fastest" none (routeStub "fastest" 1)
    [] [routeStub "safest" 0] rfl rfl ?_
  intro r hr
  rcases hr with h | h
  · exact absurd h (List.not_mem_nil r)
  · rcases List.mem_singleton.mp h with rfl
    norm_num [routeStub]

/-- Claim C5 counterexample: under the all-zero host math every candidate
scores exactly 0, so the active fastest route ties the maximum score, yet
the suggestion effect still emits a suggestion (the reduce resolves the tie
to the last-enumerated candidate, whose key differs from the active key). -/
theorem suggestion_emitted_on_tie_cx :
    (routesAt opsZero 0 condStoreInit 15 prefs0).map
      (fun r => (r.key, r.score)) =
      [("fastest", 0), ("safest", 0), ("balanced", 0), ("night", 0), ("female", 0)] ∧
    suggestionEffect (routesAt opsZero 0 condStoreInit 15 prefs0) "fastest" none ≠ none := by
  have hscore : ∀ c : Candidate, (evaluateAt opsZero 0 condStoreInit 15 prefs0 c).score = 0 :=
    fun c => evaluate_opsZero_score (fun _ => 0) condStoreInit 15 prefs0 c
  constructor
  · simp only [routesAt, baseCandidates, List.map_cons, List.map_nil, evaluate_key, hscore]
    rfl
  · have hfind : (routesAt opsZero 0 condStoreInit 15 prefs0).find?
        (fun r => r.key == "fastest") =
        some (evaluateAt opsZero 0 condStoreInit 15 prefs0 candFastest) := rfl
    have hroutes : routesAt opsZero 0 condStoreInit 15 prefs0 =
        evaluateAt opsZero 0 condStoreInit 15 prefs0 candFastest ::
        [evaluateAt opsZero 0 condStoreInit 15 prefs0 candSafest,
         evaluateAt opsZero 0 condStoreInit 15 prefs0 candBalanced,
         evaluateAt opsZero 0 condStoreInit 15 prefs0 candNight,
         evaluateAt opsZero 0 condStoreInit 15 prefs0 candFemale] := rfl
    unfold suggestionEffect
    rw [hfind, hroutes]
    have hle : ∀ x y : Candidate, (evaluateAt opsZero 0 condStoreInit 15 prefs0 x).score ≤
        (evaluateAt opsZero 0 condStoreInit 15 prefs0 y).score := by
      intro x y
      rw [hscore x, hscore y]
    simp only [List.foldl_cons, List.foldl_nil,
      pickBetter_le _ _ (hle candFastest candSafest),
      pickBetter_le _ _ (hle candSafest candBalanced),
      pickBetter_le _ _ (hle candBalanced candNight),
      pickBetter_le _ _ (hle candNight candFemale)]
    rw [if_pos]
    · simp
    · show (evaluateAt opsZero 0 condStoreInit 15 prefs0 candFemale).key ≠
        (evaluateAt opsZero 0 condStoreInit 15 prefs0 candFastest).key
      rw [evaluateAt, evaluateAt, evaluate_key, evaluate_key]
      decide

/-- Claim C10: for each pair of consecutive segments of a base candidate
that do not share an endpoint (C2 to A2 on fastest, A1 to B1 on balanced,
B1 to A2 on female), the boundary's anchor coordinate is the next segment's
first point, it is dropped from the built path, the boundary can never
become the current maneuver at any progress index, and it never triggers a
voice announcement. -/
theorem nonshared_boundary_never_current_maneuver :
    (((37.7772 : ℚ), (-122.416 : ℚ)) ∉ pathOf candFastest ∧
      (∀ idx m ni, currentManeuver (pathOf candFastest) (maneuversOf candFastest) idx =
        some (m, ni) → m.point ≠ ((37.7772 : ℚ), (-122.416 : ℚ))) ∧
      (∀ (d : Coord → Coord → ℚ) (idx : ℕ) (voiced : List ℤ) (m : Maneuver),
        (voiceStep d (pathOf candFastest) (maneuversOf candFastest) idx voiced).2 = some m →
        m.point ≠ ((37.7772 : ℚ), (-122.416 : ℚ)))) ∧
    (((37.7745 : ℚ), (-122.419 : ℚ)) ∉ pathOf candBalanced ∧
      (∀ idx m ni, currentManeuver (pathOf candBalanced) (maneuversOf candBalanced) idx =
        some (m, ni) → m.point ≠ ((37.7745 : ℚ), (-122.419 : ℚ))) ∧
      (∀ (d : Coord → Coord → ℚ) (idx : ℕ) (voiced : List ℤ) (m : Maneuver),
        (voiceStep d (pathOf candBalanced) (maneuversOf candBalanced) idx voiced).2 = some m →
        m.point ≠ ((37.7745 : ℚ), (-122.419 : ℚ)))) ∧
    (((37.7772 : ℚ), (-122.416 : ℚ)) ∉ pathOf candFemale ∧
      (∀ idx m ni, currentManeuver (pathOf candFemale) (maneuversOf candFemale) idx =
        some (m, ni) → m.point ≠ ((37.7772 : ℚ), (-122.416 : ℚ))) ∧
      (∀ (d : Coord → Coord → ℚ) (idx : ℕ) (voiced : List ℤ) (m : Maneuver),
        (voiceStep d (pathOf candFemale) (maneuversOf candFemale) idx voiced).2 = some m →
        m.point ≠ ((37.7772 : ℚ), (-122.416 : ℚ)))) := by
  have hF : ((37.7772 : ℚ), (-122.416 : ℚ)) ∉ pathOf candFastest := by
    rw [pathF_eq]
    norm_num [Prod.ext_iff]
  have hB : ((37.7745 : ℚ), (-122.419 : ℚ)) ∉ pathOf candBalanced := by
    rw [pathB_eq]
    norm_num [Prod.ext_iff]
  have hFem : ((37.7772 : ℚ), (-122.416 : ℚ)) ∉ pathOf candFemale := by
    rw [pathFem_eq]
    norm_num [Prod.ext_iff]
  refine ⟨⟨hF, ?_, ?_⟩, ⟨hB, ?_, ?_⟩, ⟨hFem, ?_, ?_⟩⟩
  · intro idx m ni h heq
    exact hF (heq ▸ currentManeuver_point_mem _ _ idx m ni h)
  · intro d idx voiced m h heq
    rcases voiceStep_some d _ _ idx voiced m h with ⟨ni, hc⟩
    exact hF (heq ▸ currentManeuver_point_mem _ _ idx m ni hc)
  · intro idx m ni h heq
    exact hB (heq ▸ currentManeuver_point_mem _ _ idx m ni h)
  · intro d idx voiced m h heq
    rcases voiceStep_some d _ _ idx voiced m h with ⟨ni, hc⟩
    exact hB (heq ▸ currentManeuver_point_mem _ _ idx m ni hc)
  · intro idx m ni h heq
    exact hFem (heq ▸ currentManeuver_point_mem _ _ idx m ni h)
  · intro d idx voiced m h heq
    rcases voiceStep_some d _ _ idx voiced m h with ⟨ni, hc⟩
    exact hFem (heq ▸ currentManeuver_point_mem _ _ idx m ni hc)

/-- Claim C10 witness: at progress index 0 on the fastest route the current
maneuver exists (the shared C1-to-C2 boundary at path index 2), and by the
theorem its anchor is not the dropped C2-to-A2 anchor. -/
theorem nonshared_boundary_never_current_maneuver_witness :
    currentManeuver (pathOf candFastest) (maneuversOf candFastest) 0 = some (mProbe, 2) ∧
    mProbe.point ≠ ((37.7772 : ℚ), (-122.416 : ℚ)) := by
  have hcm : currentManeuver (pathOf candFastest) (maneuversOf candFastest) 0 =
      some (mProbe, 2) := by
    rw [pathF_eq, mansF_eq]
    norm_num [currentManeuver, cmStep, jsFindIndex, mProbe, List.findIdx?, List.foldl,
      Prod.ext_iff]
  exact ⟨hcm, nonshared_boundary_never_current_maneuver.1.2.1 0 mProbe 2 hcm⟩

end MapView
